import Mathlib

/-!
Verification of the probing engine of terraform-provider-checkmate.

The development shallowly embeds the Go sources:
- `pkg/helpers/retry.go` (the `RetryWindow` polling engine),
- `pkg/healthcheck/http.go` (`HealthCheck` and `checkStatusCode`),
- the TCP echo resource (`TCPEchoResource.TCPEcho`).

Conventions of the embedding:
- Go machine integers are modelled as `Int` (Go `int`); `strconv.Atoi`
  keeps its 64-bit range check.
- Durations (`time.Duration` built from millisecond counts) are modelled
  as natural numbers of milliseconds; probe attempts are treated as
  instantaneous, so the wall-clock time of the polling goroutine is the
  sum of the `interval` sleeps performed so far.
- The infinite `for` loop of the goroutine is modelled with explicit fuel;
  a run that has neither signalled nor provably timed out within the fuel
  is reported as undetermined rather than forced to a result.
- Mutation of `*diag.Diagnostics` and of fields of the argument struct is
  modelled by explicit state threading. Diagnostic detail strings built
  with `fmt.Sprintf` are elided; severities and summary strings are kept.
- External library calls (URL parsing, TLS cert pool, jsonpath, regexp,
  the network and the TCP connection) are modelled as oracle parameters,
  with concrete instantiations where a claim pins their behaviour down.
-/

namespace Checkmate

/-! ## Diagnostics (terraform-plugin-framework `diag.Diagnostics`) -/

/-- Severity of one diagnostic entry. -/
inductive Severity where
  | error
  | warning
deriving DecidableEq, Repr

/-- One diagnostic entry. Detail strings (built with `fmt.Sprintf` in Go)
are elided; the summary string is kept verbatim. -/
structure Diagnostic where
  severity : Severity
  summary : String
deriving DecidableEq, Repr

/-- The diagnostics sink threaded through the checks. Entries are appended
at the end, as `diag.AddError` / `diag.AddWarning` do. -/
abbrev Diagnostics := List Diagnostic

/-- Model of `diag.AddError` (and of the `diagAddError` helper applied to a
non-nil sink). -/
def addError (d : Diagnostics) (summary : String) : Diagnostics :=
  d ++ [⟨Severity.error, summary⟩]

/-- Model of `diag.AddWarning` / `diagAddWarning`. -/
def addWarning (d : Diagnostics) (summary : String) : Diagnostics :=
  d ++ [⟨Severity.warning, summary⟩]

/-- Model of `diag.HasError()`. -/
def hasError (d : Diagnostics) : Bool :=
  d.any fun e => e.severity = Severity.error

/-! ## Go string primitives

Strings handled by the checks are modelled as `List Char` so that every
operation is structurally recursive and evaluates inside the kernel. The
separators used by the source (`,`, `-`, `\x00`, `\n`) are ASCII, so
splitting by character coincides with Go's byte-wise splitting. -/

/-- Model of Go `strings.Split(s, sep)` for a one-character separator:
`splitOnChar sep s` returns the (never empty) list of chunks between
occurrences of `sep`. -/
def splitOnChar (sep : Char) : List Char → List (List Char)
  | [] => [[]]
  | c :: cs =>
    let r := splitOnChar sep cs
    if c = sep then [] :: r
    else
      match r with
      | h :: t => (c :: h) :: t
      | [] => [[c]]

/-- Model of Go `strings.Contains(hay, needle)`. -/
def goContains (hay needle : List Char) : Bool :=
  match hay with
  | [] => needle.isEmpty
  | c :: t => needle.isPrefixOf (c :: t) || goContains t needle

/-- Model of Go `strconv.Atoi`: an optional ASCII sign followed by at least
one ASCII digit, rejected when the value falls outside the 64-bit signed
range. `none` models a non-nil error. -/
def atoi? (s : List Char) : Option Int :=
  let signed : Bool × List Char :=
    match s with
    | '-' :: rest => (true, rest)
    | '+' :: rest => (false, rest)
    | _ => (false, s)
  let neg := signed.1
  let digits := signed.2
  if digits.isEmpty then none
  else if digits.all (fun c => c.isDigit) then
    let n : Nat := digits.foldl (fun acc c => acc * 10 + (c.toNat - 48)) 0
    if neg then
      if n ≤ 9223372036854775808 then some (-(n : Int)) else none
    else
      if n ≤ 9223372036854775807 then some (n : Int) else none
  else none

/-! ## `checkStatusCode` (pkg/healthcheck/http.go)

The Go function walks the comma-separated segments of the pattern; each
loop iteration either matches the code, rejects the segment as malformed
(adding a "Bad status code pattern" error diagnostic and returning), or
moves on to the next segment. `segAt` is the body of one iteration,
`checkSegments` the loop, `checkStatusCode` the function. The returned
`Option String` models the Go `error` result (`none` = nil). -/

/-- Outcome of examining one segment of the status-code pattern against a
code, mirroring one iteration of the `range ranges` loop. `malformed`
carries the message of the Go error returned from that branch. -/
inductive SegRes where
  | matched
  | noMatch
  | malformed (msg : String)
deriving DecidableEq, Repr

/-- One iteration of the segment loop of `checkStatusCode`: split the
segment on `-`, then follow the `len(bounds)` cases of the source. -/
def segAt (code : Int) (seg : List Char) : SegRes :=
  match splitOnChar '-' seg with
  | [b0, b1] =>
    match atoi? b0 with
    | none => SegRes.malformed "convert left bound to integer"
    | some left =>
      match atoi? b1 with
      | none => SegRes.malformed "convert right bound to integer"
      | some right =>
        if left > right then
          SegRes.malformed "left bound is greater than right bound"
        else if left ≤ code ∧ right ≥ code then SegRes.matched
        else SegRes.noMatch
  | [b] =>
    match atoi? b with
    | none => SegRes.malformed "convert value to integer"
    | some val => if val = code then SegRes.matched else SegRes.noMatch
  | _ => SegRes.malformed "too many dashes in range pattern"

/-- The segment loop of `checkStatusCode`. A malformed segment adds the
"Bad status code pattern" error diagnostic and returns; exhausting the
segments returns the non-match error with the diagnostics untouched. -/
def checkSegments (code : Int) (d : Diagnostics) :
    List (List Char) → Bool × Option String × Diagnostics
  | [] => (false, some "status code does not match pattern", d)
  | seg :: rest =>
    match segAt code seg with
    | SegRes.matched => (true, none, d)
    | SegRes.noMatch => checkSegments code d rest
    | SegRes.malformed msg => (false, some msg, addError d "Bad status code pattern")

/-- Model of `checkStatusCode(pattern, code, diag)`. -/
def checkStatusCode (pattern : String) (code : Int) (d : Diagnostics) :
    Bool × Option String × Diagnostics :=
  checkSegments code d (splitOnChar ',' pattern.toList)

/-! ## RetryWindow (pkg/helpers/retry.go, the context-aware variant) -/

/-- Model of the `RetryResult` enumeration (`Success`, `TimeoutExceeded`,
`Failure`). -/
inductive RetryResult where
  | Success
  | TimeoutExceeded
  | Failure
deriving DecidableEq, Repr

/-- Which channel the polling goroutine sends on when it stops: `success`
after enough consecutive successes, `failure` after observing context
cancellation. -/
inductive GoSignal where
  | success
  | failure
deriving DecidableEq, Repr

/-- Observable outcome of running the goroutine of `RetryWindow.Do` for a
bounded number of iterations: the signal sent (if any), the total sleep
time accumulated when it was sent, the number of `action` invocations
performed, and the final value of the state captured by the closure. -/
structure LoopRes (σ : Type) where
  signal : Option GoSignal
  time : Nat
  invocations : Nat
  state : σ
deriving DecidableEq, Repr

/-- Model of the `RetryWindow` struct. The `context.Context` field is
modelled by the predicate `cancelled`, telling whether `ctx.Done()` is
observed at the top of a given iteration (iterations counted from 1).
Durations are in milliseconds. -/
structure RetryWindow where
  Timeout : Nat
  Interval : Nat
  ConsecutiveSuccesses : Int
  cancelled : Nat → Bool

/-- The goroutine body of `RetryWindow.Do`, with the closure's captured
mutable state `σ` threaded explicitly. `attempt`, `successCount` and the
accumulated sleep `time` mirror the goroutine's locals (attempts are
treated as instantaneous, so logical time advances only at
`time.Sleep(r.Interval)`). `fuel` bounds how many iterations of the
unbounded `for` loop are examined; running out of fuel yields `none` for
the signal. -/
def runSt {σ : Type} (required : Int) (interval : Nat) (cancelled : Nat → Bool)
    (action : Nat → Nat → σ → Bool × σ) :
    Nat → Nat → Nat → Nat → σ → LoopRes σ
  | 0, attempt, _, time, st => ⟨none, time, attempt, st⟩
  | fuel + 1, attempt, successCount, time, st =>
    if cancelled (attempt + 1) then ⟨some GoSignal.failure, time, attempt, st⟩
    else
      let res := action (attempt + 1) successCount st
      if res.1 then
        if required ≤ (successCount + 1 : Int) then
          ⟨some GoSignal.success, time, attempt + 1, res.2⟩
        else
          runSt required interval cancelled action fuel (attempt + 1) (successCount + 1)
            (time + interval) res.2
      else
        runSt required interval cancelled action fuel (attempt + 1) 0 (time + interval) res.2

/-- The race in `Do` between the goroutine's channels and
`time.After(r.Timeout)`: a signal sent strictly before the timeout wins;
once the goroutine has already slept past the timeout the timer wins even
without a signal; a goroutine still running short of the timeout when the
fuel runs out is undetermined (`none`). -/
def raceResult {σ : Type} (timeout : Nat) (res : LoopRes σ) : Option RetryResult :=
  match res.signal with
  | some GoSignal.success =>
    some (if res.time < timeout then RetryResult.Success else RetryResult.TimeoutExceeded)
  | some GoSignal.failure =>
    some (if res.time < timeout then RetryResult.Failure else RetryResult.TimeoutExceeded)
  | none => if timeout ≤ res.time then some RetryResult.TimeoutExceeded else none

/-- Model of `RetryWindow.Do` for an action with no captured mutable state,
also exposing the loop observables (time, invocation count). -/
def RetryWindow.DoRes (w : RetryWindow) (action : Nat → Nat → Bool) (fuel : Nat) :
    LoopRes Unit :=
  runSt w.ConsecutiveSuccesses w.Interval w.cancelled
    (fun a s _ => (action a s, ())) fuel 0 0 0 ()

/-- Model of `RetryWindow.Do`: the `RetryResult` returned by the select. -/
def RetryWindow.Do (w : RetryWindow) (action : Nat → Nat → Bool) (fuel : Nat) :
    Option RetryResult :=
  raceResult w.Timeout (w.DoRes action fuel)

/-! ## Lemmas about the polling loop -/

/-- One unfolding of the goroutine loop for a pure, state-free action and a
context that is never cancelled. -/
theorem runStP_step (n : Int) (interval : Nat) (g : Nat → Nat → Bool)
    (fuel attempt s time : Nat) :
    runSt n interval (fun _ => false) (fun a b _ => (g a b, ())) (fuel + 1) attempt s time () =
      if g (attempt + 1) s = true then
        (if n ≤ (s + 1 : Int) then ⟨some GoSignal.success, time, attempt + 1, ()⟩
         else runSt n interval (fun _ => false) (fun a b _ => (g a b, ()))
            fuel (attempt + 1) (s + 1) (time + interval) ())
      else runSt n interval (fun _ => false) (fun a b _ => (g a b, ()))
        fuel (attempt + 1) 0 (time + interval) () := rfl

/-- A success signal sent at time `t` wins the select iff it precedes the
timeout. -/
theorem raceResult_success {σ : Type} (timeout t i : Nat) (st : σ) :
    raceResult timeout (⟨some GoSignal.success, t, i, st⟩ : LoopRes σ) =
      some (if t < timeout then RetryResult.Success else RetryResult.TimeoutExceeded) := rfl

/-- If the action returns true on the next `k + 1` attempts and exactly
`k + 1` more consecutive successes are required, the loop signals success
after exactly those `k + 1` further invocations, having slept `k` more
intervals. -/
theorem runSt_success_span (n interval : Nat) (g : Nat → Nat → Bool) :
    ∀ k fuel s attempt time,
      s + k + 1 = n → k + 1 ≤ fuel →
      (∀ a b, attempt + 1 ≤ a → a ≤ attempt + k + 1 → g a b = true) →
      runSt (n : Int) interval (fun _ => false) (fun a b _ => (g a b, ())) fuel attempt s time () =
        ⟨some GoSignal.success, time + k * interval, attempt + (k + 1), ()⟩ := by
  intro k
  induction k with
  | zero =>
    intro fuel s attempt time hsn hfuel htrue
    cases fuel with
    | zero => omega
    | succ fuel =>
      rw [runStP_step, if_pos (htrue (attempt + 1) s (le_refl _) (by omega)),
        if_pos (show (n : Int) ≤ (s + 1 : Int) by omega)]
      simp
  | succ k ih =>
    intro fuel s attempt time hsn hfuel htrue
    cases fuel with
    | zero => omega
    | succ fuel =>
      rw [runStP_step, if_pos (htrue (attempt + 1) s (le_refl _) (by omega)),
        if_neg (show ¬ (n : Int) ≤ (s + 1 : Int) by omega),
        ih fuel (s+1) (attempt+1) (time+interval) (by omega) (by omega)
          (fun a b ha hb => htrue a b (by omega) (by omega))]
      congr 1
      · ring
      · omega

/-- Claim C2: with `requiredConsecutiveSuccesses = n` (`n ≥ 1`), a context
that is never cancelled, and an attempt function returning true on every
invocation, `RetryWindow.Do` signals success after exactly `n` invocations
of the attempt function and returns `Success`, provided `n × interval`
is below the overall timeout (the fuel bound only needs to cover the `n`
iterations actually executed). -/
theorem retry_all_success (n interval timeout fuel : Nat)
    (hn : 1 ≤ n) (hfuel : n ≤ fuel) (ht : n * interval < timeout) :
    RetryWindow.DoRes ⟨timeout, interval, (n : Int), fun _ => false⟩ (fun _ _ => true) fuel =
        ⟨some GoSignal.success, (n - 1) * interval, n, ()⟩ ∧
      RetryWindow.Do ⟨timeout, interval, (n : Int), fun _ => false⟩ (fun _ _ => true) fuel =
        some RetryResult.Success := by
  have h := runSt_success_span n interval (fun _ _ => true) (n - 1) fuel 0 0 0
    (by omega) (by omega) (fun a b _ _ => rfl)
  have e : RetryWindow.DoRes ⟨timeout, interval, (n : Int), fun _ => false⟩ (fun _ _ => true) fuel =
      ⟨some GoSignal.success, (n - 1) * interval, n, ()⟩ := by
    unfold RetryWindow.DoRes
    rw [h, show n - 1 + 1 = n by omega]
    simp
  refine ⟨e, ?_⟩
  unfold RetryWindow.Do
  rw [e, raceResult_success, if_pos ?_]
  calc (n - 1) * interval ≤ n * interval := Nat.mul_le_mul_right _ (by omega)
    _ < timeout := ht

/-- Witness for claim C2 at `n = 3`, `interval = 10`, `timeout = 1000`. -/
theorem retry_all_success_witness :
    (1 ≤ 3 ∧ 3 ≤ 3 ∧ 3 * 10 < 1000) ∧
      (RetryWindow.DoRes ⟨1000, 10, ((3 : Nat) : Int), fun _ => false⟩ (fun _ _ => true) 3 =
          ⟨some GoSignal.success, (3 - 1) * 10, 3, ()⟩ ∧
        RetryWindow.Do ⟨1000, 10, ((3 : Nat) : Int), fun _ => false⟩ (fun _ _ => true) 3 =
          some RetryResult.Success) :=
  ⟨⟨by decide, by decide, by decide⟩,
    retry_all_success 3 10 1000 3 (by decide) (by decide) (by decide)⟩

/-- From a state where `attempt = successCount = a` and the action is
"true except at attempt `n`", the loop fails at attempt `n`, resets the
counter, and then needs `n` further successes: it signals success after a
total of `2n` invocations. -/
theorem c3_phase1 (n interval : Nat) (hn : 1 ≤ n) :
    ∀ j fuel a time, a + j + 1 = n → j + 1 + n ≤ fuel →
      runSt (n : Int) interval (fun _ => false) (fun x _ _ => ((x != n), ())) fuel a a time () =
        ⟨some GoSignal.success, time + (j + n) * interval, 2 * n, ()⟩ := by
  intro j
  induction j with
  | zero =>
    intro fuel a time han hfuel
    cases fuel with
    | zero => omega
    | succ fuel =>
      rw [runStP_step, if_neg (by simp [show a + 1 = n by omega])]
      have h := runSt_success_span n interval (fun x _ => x != n) (n - 1) fuel 0 (a + 1)
        (time + interval) (by omega) (by omega)
        (fun x _ hx _ => by simp [show x ≠ n by omega])
      rw [h, show n - 1 + 1 = n by omega]
      congr 1
      · rw [show (0 : Nat) + n = (n - 1) + 1 by omega]
        ring
      · omega
  | succ j ih =>
    intro fuel a time han hfuel
    cases fuel with
    | zero => omega
    | succ fuel =>
      rw [runStP_step, if_pos (by simp [show a + 1 ≠ n by omega]),
        if_neg (show ¬ (n : Int) ≤ (a + 1 : Int) by omega),
        ih fuel (a + 1) (time + interval) (by omega) (by omega)]
      congr 1
      ring

/-- Claim C3: a failing attempt resets the consecutive-success counter to
zero. With the attempt function that succeeds on attempts `1..n-1`, fails
on attempt `n`, and succeeds thereafter, the session still needs `n`
further consecutive successes after the failure: it ends with `Success`
only after `2n` total invocations (not `n + 1`). -/
theorem retry_reset_on_failure (n interval timeout fuel : Nat)
    (hn : 1 ≤ n) (hfuel : 2 * n ≤ fuel) (ht : (2 * n - 1) * interval < timeout) :
    RetryWindow.DoRes ⟨timeout, interval, (n : Int), fun _ => false⟩ (fun a _ => a != n) fuel =
        ⟨some GoSignal.success, (2 * n - 1) * interval, 2 * n, ()⟩ ∧
      RetryWindow.Do ⟨timeout, interval, (n : Int), fun _ => false⟩ (fun a _ => a != n) fuel =
        some RetryResult.Success := by
  have h := c3_phase1 n interval hn (n - 1) fuel 0 0 (by omega) (by omega)
  have e : RetryWindow.DoRes ⟨timeout, interval, (n : Int), fun _ => false⟩ (fun a _ => a != n) fuel =
      ⟨some GoSignal.success, (2 * n - 1) * interval, 2 * n, ()⟩ := by
    unfold RetryWindow.DoRes
    rw [h, show n - 1 + n = 2 * n - 1 by omega]
    simp
  refine ⟨e, ?_⟩
  unfold RetryWindow.Do
  rw [e, raceResult_success, if_pos ht]

/-- Witness for claim C3 at `n = 2`, `interval = 10`, `timeout = 1000`:
attempt 2 fails, so four invocations (not three) are needed. -/
theorem retry_reset_on_failure_witness :
    (1 ≤ 2 ∧ 2 * 2 ≤ 4 ∧ (2 * 2 - 1) * 10 < 1000) ∧
      (RetryWindow.DoRes ⟨1000, 10, ((2 : Nat) : Int), fun _ => false⟩ (fun a _ => a != 2) 4 =
          ⟨some GoSignal.success, (2 * 2 - 1) * 10, 2 * 2, ()⟩ ∧
        RetryWindow.Do ⟨1000, 10, ((2 : Nat) : Int), fun _ => false⟩ (fun a _ => a != 2) 4 =
          some RetryResult.Success) :=
  ⟨⟨by decide, by decide, by decide⟩,
    retry_reset_on_failure 2 10 1000 4 (by decide) (by decide) (by decide)⟩

/-! ## Claim C4: the status-code pattern grammar -/

/-- Claim C4: `checkStatusCode "200-204,300-305" c` is true iff
`200 ≤ c ≤ 204 ∨ 300 ≤ c ≤ 305`; overlapping ranges are allowed
(`checkStatusCode "200-204,204-300" 200` is true); and
`"200-204-300"` is a parse error for every code: the boolean is false, the
Go error is the "too many dashes" error, and a "Bad status code pattern"
error diagnostic is added, independently of `c`. -/
theorem checkStatusCode_pattern_grammar :
    (∀ (c : Int) (d : Diagnostics),
        (checkStatusCode "200-204,300-305" c d).1 = true ↔
          ((200 ≤ c ∧ c ≤ 204) ∨ (300 ≤ c ∧ c ≤ 305))) ∧
      (∀ d : Diagnostics, (checkStatusCode "200-204,204-300" 200 d).1 = true) ∧
      (∀ (c : Int) (d : Diagnostics),
        checkStatusCode "200-204-300" c d =
          (false, some "too many dashes in range pattern",
            addError d "Bad status code pattern")) := by
  refine ⟨fun c d => ?_, fun d => rfl, fun c d => rfl⟩
  show (checkSegments c d ["200-204".toList, "300-305".toList]).1 = true ↔ _
  simp only [checkSegments]
  have e1 : segAt c "200-204".toList =
      if (200 : Int) ≤ c ∧ (204 : Int) ≥ c then SegRes.matched else SegRes.noMatch := rfl
  have e2 : segAt c "300-305".toList =
      if (300 : Int) ≤ c ∧ (305 : Int) ≥ c then SegRes.matched else SegRes.noMatch := rfl
  rw [e1, e2]
  by_cases h1 : (200 : Int) ≤ c ∧ (204 : Int) ≥ c
  · simp [h1]
  · by_cases h2 : (300 : Int) ≤ c ∧ (305 : Int) ≥ c
    · simp [h1, h2, checkSegments]
    · simp [h1, h2, checkSegments]

/-! ## HTTP health check (pkg/healthcheck/http.go, `HealthCheck`)

The request machinery is abstracted: one probe attempt either fails at the
transport (`client.Do` returns an error, modelled by `none`) or yields a
response with a status code and a body. Fields of `HttpHealthArgs` that
only shape the outgoing request (`Method`, `Headers`, `RequestBody`,
`RequestTimeout`) are absorbed into the response oracle and omitted. -/

/-- One received HTTP response, as observed by the attempt closure.
`bodyReadOk` tells whether `io.ReadAll(httpResponse.Body)` succeeds. -/
structure HttpResponse where
  statusCode : Int
  body : String
  bodyReadOk : Bool
deriving DecidableEq, Repr

/-- Oracles for the external libraries used by `HealthCheck`:
`url.Parse` success, `x509.CertPool.AppendCertsFromPEM` success, the
k8s.io jsonpath `Parse`+`Execute` pipeline (`none` models either a parse
or an execution error, both of which make the closure return false), and
`regexp.MustCompile(pattern).MatchString`. -/
structure HttpLib where
  urlParseOk : String → Bool
  appendCertsOk : String → Bool
  jsonPath : String → String → Option String
  regexMatch : String → String → Bool

/-- The fields of `HttpHealthArgs` the modelled control flow reads.
Durations are milliseconds. -/
structure HttpHealthArgs where
  URL : String
  Timeout : Nat
  Interval : Nat
  StatusCode : String
  ConsecutiveSuccesses : Int
  IgnoreFailure : Bool
  CABundle : String
  InsecureTLS : Bool
  JSONPath : String
  JSONValue : String

/-- The attempt closure passed to `window.Do` by `HealthCheck`. The state
is the pair of the captured mutable locals `(data.ResultBody, diag)`.
Faithful points: the closure adds a "check status code" error diagnostic
whenever `checkCode` returns a non-nil error (which includes a plain
non-match); the body is captured only on a status match; and the closure
falls through to the JSONPath block unconditionally — it never returns the
computed `success` value. -/
def httpAttemptStep (lib : HttpLib) (args : HttpHealthArgs) (resp : Option HttpResponse)
    (st : String × Diagnostics) : Bool × String × Diagnostics :=
  match resp with
  | none => (false, st)
  | some r =>
    let chk := checkStatusCode args.StatusCode r.statusCode st.2
    let success := chk.1
    let diag := if (chk.2.1).isSome then addError chk.2.2 "check status code" else chk.2.2
    let resultBody := if success then (if r.bodyReadOk then r.body else "") else st.1
    let jsonOk :=
      match lib.jsonPath args.JSONPath resultBody with
      | none => false
      | some out => lib.regexMatch args.JSONValue out
    (jsonOk, resultBody, diag)

/-- Observable outcome of `HealthCheck`: an early return before the retry
loop (with the diagnostics at that point and the Go error message), the
nil-pointer panic in the CA-bundle branch, a finished run (result, final
`data.Passed`, final `data.ResultBody`, diagnostics, number of attempts),
or a run the fuel could not resolve. -/
inductive HealthOutcome where
  | earlyReturn (d : Diagnostics) (errMsg : String)
  | panicked
  | finished (result : RetryResult) (passed : Bool) (resultBody : String)
      (d : Diagnostics) (invocations : Nat)
  | pending (d : Diagnostics) (invocations : Nat)
deriving DecidableEq, Repr

/-- The diagnostics visible in an outcome. -/
def HealthOutcome.diags : HealthOutcome → Diagnostics
  | HealthOutcome.earlyReturn d _ => d
  | HealthOutcome.panicked => []
  | HealthOutcome.finished _ _ _ d _ => d
  | HealthOutcome.pending d _ => d

/-- The number of probe attempts performed in an outcome. -/
def HealthOutcome.attempts : HealthOutcome → Nat
  | HealthOutcome.earlyReturn _ _ => 0
  | HealthOutcome.panicked => 0
  | HealthOutcome.finished _ _ _ _ i => i
  | HealthOutcome.pending _ i => i

/-- The `switch result` block after `window.Do` in `HealthCheck`:
`Success` sets `data.Passed = true`; `TimeoutExceeded` adds a
"Timeout exceeded" warning plus, unless `IgnoreFailure`
(`create_anyway_on_check_failure`), a "Check failed" error; `Failure`
(context cancelled) falls through with `Passed` still false. -/
def httpLoopPhase (args : HttpHealthArgs) (res : LoopRes (String × Diagnostics)) :
    HealthOutcome :=
  match raceResult args.Timeout res with
  | some RetryResult.Success =>
    HealthOutcome.finished RetryResult.Success true res.state.1 res.state.2 res.invocations
  | some RetryResult.TimeoutExceeded =>
    let d := addWarning res.state.2 "Timeout exceeded"
    let d := if ¬ args.IgnoreFailure then addError d "Check failed" else d
    HealthOutcome.finished RetryResult.TimeoutExceeded false res.state.1 d res.invocations
  | some RetryResult.Failure =>
    HealthOutcome.finished RetryResult.Failure false res.state.1 res.state.2 res.invocations
  | none => HealthOutcome.pending res.state.2 res.invocations

/-- Model of `HealthCheck(ctx, data, diag)`, following the source order:
parse the URL; require JSONPath and JSONValue to be set together; run
`checkStatusCode(pattern, 0, diag)` once and return if the diagnostics
hold an error; add (only) an error diagnostic when both a CA bundle and
insecure TLS are configured; panic (`err.Error()` on the nil `err` left by
the successful `url.Parse`) when appending a non-empty CA bundle fails;
then drive the attempt closure through `RetryWindow.Do` and translate the
result (`Success` sets `Passed`; `TimeoutExceeded` adds a warning, plus an
error unless `IgnoreFailure`). -/
def HealthCheck (lib : HttpLib) (args : HttpHealthArgs)
    (responses : Nat → Option HttpResponse) (cancelled : Nat → Bool)
    (fuel : Nat) (d0 : Diagnostics) : HealthOutcome :=
  if ¬ lib.urlParseOk args.URL then
    HealthOutcome.earlyReturn (addError d0 "Client Error") "parse url"
  else if (args.JSONPath ≠ "" ∧ args.JSONValue = "") ∨
      (args.JSONPath = "" ∧ args.JSONValue ≠ "") then
    HealthOutcome.earlyReturn (addError d0 "Client Error")
      "both JSONPath and JSONValue must be specified"
  else
    let d1 := (checkStatusCode args.StatusCode 0 d0).2.2
    if hasError d1 then HealthOutcome.earlyReturn d1 "bad status code pattern"
    else
      let d2 := if args.CABundle ≠ "" ∧ args.InsecureTLS then
        addError d1 "Conflicting configuration" else d1
      if args.CABundle ≠ "" ∧ ¬ lib.appendCertsOk args.CABundle then
        HealthOutcome.panicked
      else
        httpLoopPhase args (runSt args.ConsecutiveSuccesses args.Interval cancelled
          (fun a _ st => httpAttemptStep lib args (responses a) st) fuel 0 0 0 ("", d2))

/-- Model of the k8s.io jsonpath `Parse`+`Execute` pipeline restricted to
the empty expression, which is all the claims exercise: parsing `""`
succeeds with a template of zero nodes, and executing it writes nothing,
whatever the document. Any other expression is mapped to a failure (the
closure turns either library failure into a failed attempt); no claim
evaluates the oracle there. -/
def jsonPathEmptyModel (path : String) (_body : String) : Option String :=
  if path = "" then some "" else none

/-- Model of `regexp.MustCompile(p).MatchString(s)` restricted to the empty
pattern, which matches every string; no claim evaluates it on a non-empty
pattern. -/
def regexMatchEmptyModel (pattern : String) (_s : String) : Bool :=
  pattern = ""

/-- Library oracle where URL parsing and CA-bundle appending succeed. -/
def httpLibOk : HttpLib :=
  ⟨fun _ => true, fun _ => true, jsonPathEmptyModel, regexMatchEmptyModel⟩

/-- Library oracle where appending the CA bundle to the cert pool fails
(bad PEM). -/
def httpLibBadPEM : HttpLib :=
  ⟨fun _ => true, fun _ => false, jsonPathEmptyModel, regexMatchEmptyModel⟩

/-! ## Generic lemmas about the stateful loop -/

/-- One unfolding of the goroutine loop for an arbitrary stateful action. -/
theorem runSt_step {σ : Type} (required : Int) (interval : Nat) (cancelled : Nat → Bool)
    (action : Nat → Nat → σ → Bool × σ) (fuel attempt s time : Nat) (st : σ) :
    runSt required interval cancelled action (fuel + 1) attempt s time st =
      if cancelled (attempt + 1) = true then ⟨some GoSignal.failure, time, attempt, st⟩
      else if (action (attempt + 1) s st).1 = true then
        (if required ≤ (s + 1 : Int) then
          ⟨some GoSignal.success, time, attempt + 1, (action (attempt + 1) s st).2⟩
         else runSt required interval cancelled action fuel (attempt + 1) (s + 1)
            (time + interval) (action (attempt + 1) s st).2)
      else runSt required interval cancelled action fuel (attempt + 1) 0 (time + interval)
        (action (attempt + 1) s st).2 := rfl

/-- A property of the closure state preserved by every action invocation is
preserved by the whole loop. -/
theorem runSt_preserves {σ : Type} (P : σ → Prop) (required : Int) (interval : Nat)
    (cancelled : Nat → Bool) (action : Nat → Nat → σ → Bool × σ)
    (hP : ∀ a b st, P st → P (action a b st).2) :
    ∀ fuel attempt s time st, P st →
      P (runSt required interval cancelled action fuel attempt s time st).state := by
  intro fuel
  induction fuel with
  | zero => intro attempt s time st h; exact h
  | succ fuel ih =>
    intro attempt s time st h
    rw [runSt_step]
    split_ifs with hc ha hr
    · exact h
    · exact hP _ _ _ h
    · exact ih _ _ _ _ (hP _ _ _ h)
    · exact ih _ _ _ _ (hP _ _ _ h)

/-- The loop never loses invocations: starting from `attempt` performed
attempts, the final count is at least `attempt`. -/
theorem runSt_invocations_lb {σ : Type} (required : Int) (interval : Nat)
    (cancelled : Nat → Bool) (action : Nat → Nat → σ → Bool × σ) :
    ∀ fuel attempt s time st,
      attempt ≤ (runSt required interval cancelled action fuel attempt s time st).invocations := by
  intro fuel
  induction fuel with
  | zero => intro attempt s time st; exact le_refl _
  | succ fuel ih =>
    intro attempt s time st
    rw [runSt_step]
    split_ifs with hc ha hr
    · exact le_refl attempt
    · exact Nat.le_succ attempt
    · exact le_trans (Nat.le_succ attempt) (ih (attempt + 1) (s + 1) (time + interval) _)
    · exact le_trans (Nat.le_succ attempt) (ih (attempt + 1) 0 (time + interval) _)

/-- With fuel for at least one iteration and no cancellation at the first
iteration, the loop invokes the action at least once. -/
theorem runSt_invocations_pos {σ : Type} (required : Int) (interval : Nat)
    (cancelled : Nat → Bool) (action : Nat → Nat → σ → Bool × σ)
    (fuel time : Nat) (st : σ) (hc : cancelled 1 = false) :
    1 ≤ (runSt required interval cancelled action (fuel + 1) 0 0 time st).invocations := by
  rw [runSt_step]
  split_ifs with hc' ha hr
  · exact absurd hc' (by simp [hc])
  · exact le_refl 1
  · exact runSt_invocations_lb required interval cancelled action fuel (0 + 1) (0 + 1)
      (time + interval) _
  · exact runSt_invocations_lb required interval cancelled action fuel (0 + 1) 0
      (time + interval) _

/-! ## Diagnostics only grow -/

/-- `e` extends `d` by appended entries: the only way the modelled code
ever changes a diagnostics sink. -/
def DiagExt (d e : Diagnostics) : Prop := ∃ t, e = d ++ t

theorem diagExt_refl (d : Diagnostics) : DiagExt d d := ⟨[], by simp⟩

theorem diagExt_trans {a b c : Diagnostics} (h1 : DiagExt a b) (h2 : DiagExt b c) :
    DiagExt a c := by
  obtain ⟨t1, rfl⟩ := h1
  obtain ⟨t2, rfl⟩ := h2
  exact ⟨t1 ++ t2, by simp⟩

theorem diagExt_addError (d : Diagnostics) (s : String) : DiagExt d (addError d s) :=
  ⟨[⟨Severity.error, s⟩], rfl⟩

theorem diagExt_addWarning (d : Diagnostics) (s : String) : DiagExt d (addWarning d s) :=
  ⟨[⟨Severity.warning, s⟩], rfl⟩

theorem mem_of_diagExt {x : Diagnostic} {d e : Diagnostics} (hm : x ∈ d) (he : DiagExt d e) :
    x ∈ e := by
  obtain ⟨t, rfl⟩ := he
  exact List.mem_append_left t hm

/-- Adding an error makes `HasError()` true. -/
theorem hasError_addError (d : Diagnostics) (s : String) : hasError (addError d s) = true := by
  simp [hasError, addError]

theorem checkSegments_diagExt (code : Int) (d : Diagnostics) :
    ∀ segs, DiagExt d (checkSegments code d segs).2.2 := by
  intro segs
  induction segs with
  | nil => exact diagExt_refl d
  | cons seg rest ih =>
    rcases h : segAt code seg with _ | _ | m <;> simp only [checkSegments, h]
    · exact diagExt_refl d
    · exact ih
    · exact diagExt_addError d _

theorem httpAttemptStep_diagExt (lib : HttpLib) (args : HttpHealthArgs)
    (resp : Option HttpResponse) (st : String × Diagnostics) :
    DiagExt st.2 (httpAttemptStep lib args resp st).2.2 := by
  cases resp with
  | none => exact diagExt_refl _
  | some r =>
    show DiagExt st.2 (if ((checkStatusCode args.StatusCode r.statusCode st.2).2.1).isSome
      then addError (checkStatusCode args.StatusCode r.statusCode st.2).2.2 "check status code"
      else (checkStatusCode args.StatusCode r.statusCode st.2).2.2)
    have h1 : DiagExt st.2 (checkStatusCode args.StatusCode r.statusCode st.2).2.2 :=
      checkSegments_diagExt _ _ _
    split_ifs
    · exact diagExt_trans h1 (diagExt_addError _ _)
    · exact h1

theorem httpLoopPhase_diagExt (args : HttpHealthArgs) (res : LoopRes (String × Diagnostics)) :
    DiagExt res.state.2 (httpLoopPhase args res).diags := by
  unfold httpLoopPhase
  rcases raceResult args.Timeout res with _ | r
  · exact diagExt_refl _
  · rcases r with _ | _ | _
    · exact diagExt_refl _
    · show DiagExt res.state.2 (if ¬ args.IgnoreFailure
        then addError (addWarning res.state.2 "Timeout exceeded") "Check failed"
        else addWarning res.state.2 "Timeout exceeded")
      split_ifs
      · exact diagExt_addWarning _ _
      · exact diagExt_trans (diagExt_addWarning _ _) (diagExt_addError _ _)
    · exact diagExt_refl _

theorem httpLoopPhase_attempts (args : HttpHealthArgs) (res : LoopRes (String × Diagnostics)) :
    (httpLoopPhase args res).attempts = res.invocations := by
  unfold httpLoopPhase
  rcases raceResult args.Timeout res with _ | r
  · rfl
  · rcases r with _ | _ | _ <;> rfl

/-! ## Claim C1 -/

/-- Configuration exercising claim C1: pattern `"200"`, no JSONPath and no
JSONValue. -/
def c1Args : HttpHealthArgs :=
  ⟨"http://example.com/health", 1000, 10, "200", 1, false, "", false, "", ""⟩

/-- Claim C1 (refuted by the code; the spec states the intended
behaviour): with no JSONPath configured, an attempt whose response status
code does not match the pattern is still treated as a success. The closure
computes the status-check result but never returns it, falling through to
the JSONPath block, where the empty expression and empty value regex match
trivially. A probe with pattern `"200"` receiving a status-500 response
returns true from the attempt (second conjunct shows the status check
itself says false), and the whole health check finishes `Success` with
`passed = true` after one attempt. -/
theorem http_status_mismatch_attempt_succeeds :
    (httpAttemptStep httpLibOk c1Args (some ⟨500, "nope", true⟩) ("", [])).1 = true ∧
      (checkStatusCode "200" 500 []).1 = false ∧
      HealthCheck httpLibOk c1Args (fun _ => some ⟨500, "nope", true⟩) (fun _ => false) 1 [] =
        HealthOutcome.finished RetryResult.Success true ""
          [⟨Severity.error, "check status code"⟩] 1 :=
  ⟨rfl, rfl, rfl⟩

/-! ## Claim C9 -/

/-- Configuration exercising claim C9: a CA bundle that is not valid PEM,
insecure TLS off. -/
def c9Args : HttpHealthArgs :=
  ⟨"https://example.com/health", 1000, 10, "200", 1, false, "not a pem", false, "", ""⟩

/-- Claim C9 (refuted by the code; the spec states the intended
behaviour): when appending a configured CA bundle to the cert pool fails,
`HealthCheck` evaluates `err.Error()` on the `err` variable, which is
necessarily nil there (the last assignment was the successful
`url.Parse`), i.e. the branch panics with a nil-pointer dereference
instead of producing the intended error diagnostic. -/
theorem http_ca_append_failure_panics :
    HealthCheck httpLibBadPEM c9Args (fun _ => some ⟨200, "ok", true⟩) (fun _ => false) 1 [] =
      HealthOutcome.panicked := rfl

/-! ## Claim C7 -/

/-- Configuration exercising claim C7: both a CA bundle and insecure TLS. -/
def c7Args : HttpHealthArgs :=
  ⟨"https://example.com/health", 1000, 10, "200", 1, false, "some ca", true, "", ""⟩

/-- Counterexample to claim C7 as stated: with both a CA bundle and
insecure TLS configured, the health check does not abort and does not
perform zero attempts — it runs the retry loop (one attempt here, which
even passes) and merely carries the "Conflicting configuration" error
diagnostic along. -/
theorem http_tls_conflict_counterexample :
    HealthCheck httpLibOk c7Args (fun _ => some ⟨200, "ok", true⟩) (fun _ => false) 1 [] =
      HealthOutcome.finished RetryResult.Success true "ok"
        [⟨Severity.error, "Conflicting configuration"⟩] 1 := rfl

/-- Claim C7 as amended: when both a CA bundle and the insecure-TLS flag
are set (and the other pre-flight checks pass), the health check records a
"Conflicting configuration" error diagnostic but does not abort: the retry
loop still runs and consumes at least one attempt. -/
theorem http_tls_conflict_no_abort (lib : HttpLib) (args : HttpHealthArgs)
    (responses : Nat → Option HttpResponse) (cancelled : Nat → Bool) (fuel : Nat)
    (d0 : Diagnostics)
    (hurl : lib.urlParseOk args.URL = true)
    (hjson : ¬ ((args.JSONPath ≠ "" ∧ args.JSONValue = "") ∨
      (args.JSONPath = "" ∧ args.JSONValue ≠ "")))
    (hpat : hasError (checkStatusCode args.StatusCode 0 d0).2.2 = false)
    (hca : args.CABundle ≠ "") (hins : args.InsecureTLS = true)
    (happ : lib.appendCertsOk args.CABundle = true)
    (hfuel : 1 ≤ fuel) (hcan : cancelled 1 = false) :
    (⟨Severity.error, "Conflicting configuration"⟩ : Diagnostic) ∈
        (HealthCheck lib args responses cancelled fuel d0).diags ∧
      1 ≤ (HealthCheck lib args responses cancelled fuel d0).attempts := by
  have e : HealthCheck lib args responses cancelled fuel d0 =
      httpLoopPhase args (runSt args.ConsecutiveSuccesses args.Interval cancelled
        (fun a _ st => httpAttemptStep lib args (responses a) st) fuel 0 0 0
        ("", addError (checkStatusCode args.StatusCode 0 d0).2.2 "Conflicting configuration")) := by
    unfold HealthCheck
    rw [if_neg (by simp [hurl]), if_neg hjson, if_neg (by simp [hpat]),
      if_neg (by simp [happ]), if_pos ⟨hca, hins⟩]
  rw [e]
  set d2 := addError (checkStatusCode args.StatusCode 0 d0).2.2 "Conflicting configuration"
    with hd2
  set res := runSt args.ConsecutiveSuccesses args.Interval cancelled
    (fun a _ st => httpAttemptStep lib args (responses a) st) fuel 0 0 0 ("", d2) with hres
  constructor
  · have hmem : (⟨Severity.error, "Conflicting configuration"⟩ : Diagnostic) ∈ d2 := by
      rw [hd2]
      exact List.mem_append_right _ (List.mem_singleton.mpr rfl)
    have hext1 : DiagExt d2 res.state.2 := by
      rw [hres]
      exact runSt_preserves (fun st => DiagExt d2 st.2) _ _ _ _
        (fun a b st h => diagExt_trans h (httpAttemptStep_diagExt lib args (responses a) st))
        fuel 0 0 0 ("", d2) (diagExt_refl d2)
    exact mem_of_diagExt hmem (diagExt_trans hext1 (httpLoopPhase_diagExt args res))
  · rw [httpLoopPhase_attempts]
    cases fuel with
    | zero => omega
    | succ fuel => exact runSt_invocations_pos _ _ _ _ _ _ _ hcan

/-- Witness for the amended claim C7 at the concrete conflicting
configuration `c7Args`. -/
theorem http_tls_conflict_no_abort_witness :
    (⟨Severity.error, "Conflicting configuration"⟩ : Diagnostic) ∈
        (HealthCheck httpLibOk c7Args (fun _ => some ⟨200, "ok", true⟩)
          (fun _ => false) 1 []).diags ∧
      1 ≤ (HealthCheck httpLibOk c7Args (fun _ => some ⟨200, "ok", true⟩)
        (fun _ => false) 1 []).attempts :=
  http_tls_conflict_no_abort httpLibOk c7Args (fun _ => some ⟨200, "ok", true⟩)
    (fun _ => false) 1 [] rfl (by decide) rfl (by decide) rfl rfl (by decide) rfl

/-! ## Claim C8 -/

/-- Configuration exercising the counterexample to claim C8: the pattern
`"0,200-204-300"` contains the malformed segment `200-204-300`, but its
first segment `0` matches the probe code 0 used by the pre-flight check. -/
def c8Args : HttpHealthArgs :=
  ⟨"http://example.com/health", 1000, 10, "0,200-204-300", 1, false, "", false, "", ""⟩

/-- Counterexample to claim C8 as stated: `"0,200-204-300"` contains a
malformed segment (three dash-separated parts), yet the health check
reports no parse error at all — the pre-flight check probes the pattern at
status code 0, the well-formed first segment `0` matches and
short-circuits, and probing proceeds (here one attempt that passes, with
an empty diagnostics list). -/
theorem http_precheck_masked_counterexample :
    segAt 0 "200-204-300".toList = SegRes.malformed "too many dashes in range pattern" ∧
      HealthCheck httpLibOk c8Args (fun _ => some ⟨0, "x", true⟩) (fun _ => false) 1 [] =
        HealthOutcome.finished RetryResult.Success true "x" [] 1 :=
  ⟨rfl, rfl⟩

/-- Scanning segments in order, a malformed segment preceded only by
non-matching segments produces the parse-error result and adds the
"Bad status code pattern" error diagnostic. -/
theorem checkSegments_malformed (code : Int) (d : Diagnostics) (m : String) :
    ∀ pre bad rest, (∀ s ∈ pre, segAt code s = SegRes.noMatch) →
      segAt code bad = SegRes.malformed m →
      checkSegments code d (pre ++ bad :: rest) =
        (false, some m, addError d "Bad status code pattern") := by
  intro pre
  induction pre with
  | nil =>
    intro bad rest hpre hbad
    simp only [List.nil_append, checkSegments, hbad]
  | cons s pre ih =>
    intro bad rest hpre hbad
    have hs : segAt code s = SegRes.noMatch := hpre s (List.mem_cons_self s pre)
    simp only [List.cons_append, checkSegments, hs]
    exact ih bad rest (fun x hx => hpre x (List.mem_cons_of_mem s hx)) hbad

/-- Claim C8 as amended: a pattern containing a malformed segment is
rejected with a fatal parse error before any probe attempt, provided no
segment preceding the malformed one matches status code 0 — the code 0
against which the pre-flight validation evaluates the pattern. (Without
that proviso the claim fails; see the counterexample.) -/
theorem http_pattern_malformed_aborts (lib : HttpLib) (args : HttpHealthArgs)
    (responses : Nat → Option HttpResponse) (cancelled : Nat → Bool) (fuel : Nat)
    (d0 : Diagnostics) (pre : List (List Char)) (bad : List Char) (rest : List (List Char))
    (m : String)
    (hurl : lib.urlParseOk args.URL = true)
    (hjson : ¬ ((args.JSONPath ≠ "" ∧ args.JSONValue = "") ∨
      (args.JSONPath = "" ∧ args.JSONValue ≠ "")))
    (hsegs : splitOnChar ',' args.StatusCode.toList = pre ++ bad :: rest)
    (hpre : ∀ s ∈ pre, segAt 0 s = SegRes.noMatch)
    (hbad : segAt 0 bad = SegRes.malformed m) :
    HealthCheck lib args responses cancelled fuel d0 =
        HealthOutcome.earlyReturn (addError d0 "Bad status code pattern")
          "bad status code pattern" ∧
      (HealthCheck lib args responses cancelled fuel d0).attempts = 0 := by
  have hchk : (checkStatusCode args.StatusCode 0 d0).2.2 =
      addError d0 "Bad status code pattern" := by
    unfold checkStatusCode
    rw [hsegs, checkSegments_malformed 0 d0 m pre bad rest hpre hbad]
  have e : HealthCheck lib args responses cancelled fuel d0 =
      HealthOutcome.earlyReturn (addError d0 "Bad status code pattern")
        "bad status code pattern" := by
    unfold HealthCheck
    rw [if_neg (by simp [hurl]), if_neg hjson, hchk, if_pos (hasError_addError d0 _)]
  exact ⟨e, by rw [e]; rfl⟩

/-- Configuration for the witness of the amended claim C8: the malformed
segment follows the well-formed, non-zero-matching segment `200`. -/
def c8wArgs : HttpHealthArgs :=
  ⟨"http://example.com/health", 1000, 10, "200,200-204-300", 1, false, "", false, "", ""⟩

/-- Witness for the amended claim C8 at the pattern `"200,200-204-300"`. -/
theorem http_pattern_malformed_aborts_witness :
    HealthCheck httpLibOk c8wArgs (fun _ => some ⟨200, "x", true⟩) (fun _ => false) 5 [] =
        HealthOutcome.earlyReturn (addError [] "Bad status code pattern")
          "bad status code pattern" ∧
      (HealthCheck httpLibOk c8wArgs (fun _ => some ⟨200, "x", true⟩)
        (fun _ => false) 5 []).attempts = 0 :=
  http_pattern_malformed_aborts httpLibOk c8wArgs (fun _ => some ⟨200, "x", true⟩)
    (fun _ => false) 5 [] ["200".toList] "200-204-300".toList []
    "too many dashes in range pattern" rfl (by decide) (by decide) (by decide) rfl

/-! ## TCP echo (`TCPEchoResource.TCPEcho`)

The network is abstracted per attempt: dialing, writing
`message + "\n"`, setting the read deadline, and the read each either
succeed or fail; a successful read yields the contents of the
1024-byte NUL-initialized buffer. `Host`, `Port`, `Message`,
`ConnectionTimeout` and `SingleAttemptTimeout` only shape these
interactions and are absorbed into the per-attempt oracle. -/

/-- Model of `bytes.Trim(reply, "\x00")`: strip leading and trailing NUL
characters. -/
def trimNul (s : List Char) : List Char :=
  ((s.dropWhile (fun c => c = '\x00')).reverse.dropWhile (fun c => c = '\x00')).reverse

/-- One attempt's network interactions: `d.Dial`, `conn.Write`,
`conn.SetDeadline`, and `conn.Read` (`none` models a read error; `some`
carries the buffer contents). -/
structure TcpNet where
  dialOk : Bool
  writeOk : Bool
  setDeadlineOk : Bool
  readResult : Option (List Char)
deriving DecidableEq, Repr

/-- The mutable locals captured by the TCP attempt closure:
`firstAttemptRegexValue` and `regexValueStoredAttempt`. -/
structure TcpState where
  firstAttemptRegexValue : List Char
  regexValueStoredAttempt : Nat
deriving DecidableEq, Repr

/-- The configuration fields of `TCPEchoResourceModel` read by the
modelled control flow. Durations are milliseconds; `IgnoreFailure` is
`create_anyway_on_check_failure`. -/
structure TCPEchoArgs where
  ExpectWriteFailure : Bool
  ExpectedMessage : String
  PersistentResponseRegex : String
  Timeout : Nat
  Interval : Nat
  ConsecutiveSuccesses : Int
  IgnoreFailure : Bool

/-- The attempt closure of `TCPEcho`. `find` models
`persistentResponseRegex.FindStringIndex` followed by the
`reply[limits[0]:limits[1]]` extraction: the leftmost match of the
compiled regex, or `none`. The regex pointer is non-nil exactly when
`PersistentResponseRegex` is non-empty (and compiled). Faithful points:
in expect-write-failure mode a read error is the success case and a
successful read the failure case; in normal mode, when the regex is
configured and matches while no value is recorded yet
(`regexValueStoredAttempt == 0`), the closure records the match and
returns true immediately, skipping the expected-message containment
check; otherwise a recorded mismatch fails, and the containment check
runs last. -/
def tcpEchoAttempt (args : TCPEchoArgs) (find : List Char → Option (List Char))
    (net : TcpNet) (attempt : Nat) (st : TcpState × Diagnostics) :
    Bool × TcpState × Diagnostics :=
  if ¬ net.dialOk then (false, st)
  else if ¬ net.writeOk then (false, st)
  else if ¬ net.setDeadlineOk ∧ ¬ args.ExpectWriteFailure then (false, st)
  else
    match net.readResult with
    | none => if args.ExpectWriteFailure then (true, st) else (false, st)
    | some raw =>
      if args.ExpectWriteFailure then (false, st)
      else
        let reply := trimNul raw
        let tail : Bool × TcpState × Diagnostics :=
          if ¬ goContains reply args.ExpectedMessage.toList then
            (false, st.1, addWarning st.2 "Check failed")
          else (true, st.1, st.2)
        if args.PersistentResponseRegex ≠ "" then
          match find reply with
          | none => (false, st.1, addWarning st.2 "Check failed")
          | some result =>
            if st.1.regexValueStoredAttempt = 0 then (true, ⟨result, attempt⟩, st.2)
            else if st.1.firstAttemptRegexValue ≠ result then
              (false, st.1, addWarning st.2 "Check failed")
            else tail
        else tail

/-- Observable outcome of `TCPEcho`: the last value assigned to
`data.Passed` (`none` if it was never assigned), the final diagnostics,
the number of attempts performed, and the loop result (`none` both for
the early returns, which never reach the loop, and for a run the fuel
could not resolve — the latter always has `invocations > 0`). -/
structure TcpOutcome where
  passed : Option Bool
  diags : Diagnostics
  invocations : Nat
  result : Option RetryResult
deriving DecidableEq, Repr

/-- Model of `TCPEchoResource.TCPEcho`, following the source order: when
`expect_write_failure` is false and `expected_message` empty, log and
return before anything else (no window, no `Passed` assignment, no
diagnostic); set `Passed = false`; compile the persistent regex if
configured — on failure add the "Invalid regex" error and return; run the
attempt closure through `RetryWindow.Do`; `Success` sets `Passed = true`,
`TimeoutExceeded` adds a warning plus, unless
`create_anyway_on_check_failure`, a "Check failed" error. `compileOk`
models `regexp.Compile` succeeding on the configured pattern. -/
def TCPEcho (args : TCPEchoArgs) (compileOk : Bool) (find : List Char → Option (List Char))
    (nets : Nat → TcpNet) (cancelled : Nat → Bool) (fuel : Nat) (d0 : Diagnostics) :
    TcpOutcome :=
  if ¬ args.ExpectWriteFailure ∧ args.ExpectedMessage = "" then ⟨none, d0, 0, none⟩
  else
    if args.PersistentResponseRegex ≠ "" ∧ ¬ compileOk then
      ⟨some false, addError d0 "Invalid regex", 0, none⟩
    else
      let res := runSt args.ConsecutiveSuccesses args.Interval cancelled
        (fun a _ st => tcpEchoAttempt args find (nets a) a st) fuel 0 0 0 (⟨[], 0⟩, d0)
      match raceResult args.Timeout res with
      | some RetryResult.Success =>
        ⟨some true, res.state.2, res.invocations, some RetryResult.Success⟩
      | some RetryResult.TimeoutExceeded =>
        let d := addWarning res.state.2 "Timeout exceeded"
        let d := if ¬ args.IgnoreFailure then addError d "Check failed" else d
        ⟨some false, d, res.invocations, some RetryResult.TimeoutExceeded⟩
      | some RetryResult.Failure =>
        ⟨some false, res.state.2, res.invocations, some RetryResult.Failure⟩
      | none => ⟨some false, res.state.2, res.invocations, none⟩

/-! ## Claim C5 -/

/-- Claim C5: with a persistent-response regex configured (normal mode),
the first attempt on which the regex matches records the extracted value
and succeeds; a later attempt whose reply also matches the regex but
extracts a different value fails (adding a "Check failed" warning), even
though both replies individually matched the regex. Stated on the attempt
closure with the captured session state threaded explicitly: the first
part starts from the initial state (no value recorded), the second from
the state the first part produced. -/
theorem tcp_persistent_regex_stability (args : TCPEchoArgs)
    (find : List Char → Option (List Char)) (net1 net2 : TcpNet) (i j : Nat)
    (raw1 raw2 a b : List Char) (d0 d1 : Diagnostics)
    (hmode : args.ExpectWriteFailure = false)
    (hregex : args.PersistentResponseRegex ≠ "")
    (hi : 1 ≤ i)
    (hd1 : net1.dialOk = true) (hw1 : net1.writeOk = true) (hs1 : net1.setDeadlineOk = true)
    (hr1 : net1.readResult = some raw1)
    (hf1 : find (trimNul raw1) = some a)
    (hd2 : net2.dialOk = true) (hw2 : net2.writeOk = true) (hs2 : net2.setDeadlineOk = true)
    (hr2 : net2.readResult = some raw2)
    (hf2 : find (trimNul raw2) = some b)
    (hab : a ≠ b) :
    tcpEchoAttempt args find net1 i (⟨[], 0⟩, d0) = (true, ⟨a, i⟩, d0) ∧
      tcpEchoAttempt args find net2 j (⟨a, i⟩, d1) =
        (false, ⟨a, i⟩, addWarning d1 "Check failed") := by
  constructor
  · unfold tcpEchoAttempt
    rw [if_neg (by simp [hd1]), if_neg (by simp [hw1]), if_neg (by simp [hs1]), hr1]
    simp only [hmode, Bool.false_eq_true, if_false, if_pos hregex, hf1]
    rfl
  · unfold tcpEchoAttempt
    rw [if_neg (by simp [hd2]), if_neg (by simp [hw2]), if_neg (by simp [hs2]), hr2]
    simp only [hmode, Bool.false_eq_true, if_false, if_pos hregex, hf2]
    rw [if_neg (by omega), if_pos hab]

/-- Configuration for the claim C5 witness. -/
def c5Args : TCPEchoArgs := ⟨false, "E", "[AB]", 10000, 200, 1, false⟩

/-- Model of `regexp.MustCompile("[AB]").FindStringIndex` plus substring
extraction: the leftmost occurrence of `A` or `B`. -/
def findAB (s : List Char) : Option (List Char) :=
  match s.find? (fun c => c = 'A' || c = 'B') with
  | none => none
  | some c => some [c]

/-- Witness for claim C5: the first matching attempt extracts `A`; the
later attempt extracts `B` and fails. -/
theorem tcp_persistent_regex_stability_witness :
    tcpEchoAttempt c5Args findAB ⟨true, true, true, some "A".toList⟩ 1 (⟨[], 0⟩, []) =
        (true, ⟨"A".toList, 1⟩, []) ∧
      tcpEchoAttempt c5Args findAB ⟨true, true, true, some "B".toList⟩ 2
        (⟨"A".toList, 1⟩, []) = (false, ⟨"A".toList, 1⟩, addWarning [] "Check failed") :=
  tcp_persistent_regex_stability c5Args findAB ⟨true, true, true, some "A".toList⟩
    ⟨true, true, true, some "B".toList⟩ 1 2 "A".toList "B".toList "A".toList "B".toList
    [] [] rfl (by decide) (by decide) rfl rfl rfl rfl rfl rfl rfl rfl rfl rfl (by decide)

/-! ## Claim C6 -/

/-- Model of `regexp.MustCompile("V").FindStringIndex` plus substring
extraction: the literal `V` when the reply contains it. -/
def findLiteralV (s : List Char) : Option (List Char) :=
  if goContains s "V".toList then some "V".toList else none

/-- Configuration for the counterexample to claim C6: normal mode,
expected message `NEEDLE`, persistent regex `V`. -/
def c6Args : TCPEchoArgs := ⟨false, "NEEDLE", "V", 10000, 200, 1, false⟩

/-- Counterexample to claim C6 as stated: on the first attempt on which
the persistent regex matches, the closure returns true immediately after
recording the extracted value — the reply `V-REPLY` does not contain the
expected message `NEEDLE` (first conjunct), yet the attempt succeeds. -/
theorem tcp_expected_message_skipped_counterexample :
    goContains (trimNul "V-REPLY".toList) "NEEDLE".toList = false ∧
      tcpEchoAttempt c6Args findLiteralV ⟨true, true, true, some "V-REPLY".toList⟩ 1
        (⟨[], 0⟩, []) = (true, ⟨"V".toList, 1⟩, []) :=
  ⟨rfl, rfl⟩

/-- Claim C6 as amended: in normal mode, an attempt with a successful read
whose trimmed reply does not contain the expected message succeeds if and
only if it is the recording attempt of the persistent regex — the regex is
configured, no value is recorded yet, and the regex matches the reply.
Every other such attempt fails. (As stated the claim admitted no
exception; see the counterexample.) -/
theorem tcp_expected_message_required (args : TCPEchoArgs)
    (find : List Char → Option (List Char)) (net : TcpNet) (attempt : Nat)
    (st : TcpState × Diagnostics) (raw : List Char)
    (hmode : args.ExpectWriteFailure = false)
    (hd : net.dialOk = true) (hw : net.writeOk = true) (hs : net.setDeadlineOk = true)
    (hr : net.readResult = some raw)
    (hmiss : goContains (trimNul raw) args.ExpectedMessage.toList = false) :
    (tcpEchoAttempt args find net attempt st).1 = true ↔
      (args.PersistentResponseRegex ≠ "" ∧ st.1.regexValueStoredAttempt = 0 ∧
        ∃ r, find (trimNul raw) = some r) := by
  unfold tcpEchoAttempt
  rw [if_neg (by simp [hd]), if_neg (by simp [hw]), if_neg (by simp [hs]), hr]
  simp only [hmode, Bool.false_eq_true, if_false]
  by_cases hreg : args.PersistentResponseRegex ≠ ""
  · rw [if_pos hreg]
    cases hf : find (trimNul raw) with
    | none => simp [hf, hreg]
    | some r =>
      by_cases hst : st.1.regexValueStoredAttempt = 0
      · simp [hst, hreg, hf]
      · by_cases hne : st.1.firstAttemptRegexValue ≠ r
        · simp [hst, hne]
        · simp only [if_neg hst, if_neg hne]
          rw [if_pos (by simp only [Bool.not_eq_true]; exact hmiss)]
          simp [hst]
  · rw [if_neg hreg, if_pos (by simp only [Bool.not_eq_true]; exact hmiss)]
    simp [hreg]

/-- Witness for the amended claim C6 at the counterexample input: the
attempt succeeds precisely because it is the recording attempt. -/
theorem tcp_expected_message_required_witness :
    (tcpEchoAttempt c6Args findLiteralV ⟨true, true, true, some "V-REPLY".toList⟩ 1
        ((⟨[], 0⟩, []) : TcpState × Diagnostics)).1 = true ↔
      (c6Args.PersistentResponseRegex ≠ "" ∧
        ((⟨[], 0⟩, []) : TcpState × Diagnostics).1.regexValueStoredAttempt = 0 ∧
        ∃ r, findLiteralV (trimNul "V-REPLY".toList) = some r) :=
  tcp_expected_message_required c6Args findLiteralV
    ⟨true, true, true, some "V-REPLY".toList⟩ 1 (⟨[], 0⟩, []) "V-REPLY".toList
    rfl rfl rfl rfl rfl (by decide)

/-! ## Claim C10 -/

/-- Claim C10: when `expect_write_failure` is false and
`expected_message` is the empty string, `TCPEcho` returns before
constructing the retry window or performing any attempt, leaves the
diagnostics exactly as received (the message is only logged), and never
assigns the `passed` attribute — in particular `passed` is not set to
false. -/
theorem tcp_missing_expected_message_early_return (args : TCPEchoArgs)
    (compileOk : Bool) (find : List Char → Option (List Char)) (nets : Nat → TcpNet)
    (cancelled : Nat → Bool) (fuel : Nat) (d0 : Diagnostics)
    (h1 : args.ExpectWriteFailure = false) (h2 : args.ExpectedMessage = "") :
    TCPEcho args compileOk find nets cancelled fuel d0 = ⟨none, d0, 0, none⟩ := by
  unfold TCPEcho
  rw [if_pos ⟨by simp [h1], h2⟩]

/-- Configuration for the claim C10 witness. -/
def c10Args : TCPEchoArgs := ⟨false, "", "", 10000, 200, 1, false⟩

/-- Witness for claim C10. -/
theorem tcp_missing_expected_message_early_return_witness :
    TCPEcho c10Args true (fun _ => none) (fun _ => ⟨true, true, true, none⟩)
      (fun _ => false) 3 [] = ⟨none, [], 0, none⟩ :=
  tcp_missing_expected_message_early_return c10Args true (fun _ => none)
    (fun _ => ⟨true, true, true, none⟩) (fun _ => false) 3 [] rfl rfl

end Checkmate
